import Mathlib

/-!
Shallow embedding of the MIPS-I instruction-set simulator (src/sim/sim.c,
src/sim/sim.h) and verification of the specification claims about it.

Machine integers: every C `uint32_t` value is modelled as a `Nat`; wherever the
C code performs 32-bit arithmetic that can exceed the 32-bit range, the result
is reduced modulo `U32 = 2 ^ 32`.  C expressions whose evaluation is undefined
behaviour (division by zero, shifts by 32 or more, passing a non-pointer to a
printf or scanf pointer conversion) are modelled by the `undef` outcome: the
source performs no check, so the embedding marks exactly the inputs on which
the C abstract machine has no defined result.
-/

namespace MipsSim

/-- Modulus of 32-bit unsigned arithmetic. -/
def U32 : Nat := 4294967296

/-! Register ids from `enum mips_regids` in sim.h (only those the code uses). -/

def zero : Nat := 0

def v0 : Nat := 2

def a0 : Nat := 4

def sp : Nat := 29

def ra : Nat := 31

/-- CPU context (`struct context` in sim.h): pc, 32 general registers, HI, LO.
The register file is a total function from register index to value. -/
structure context where
  pc : Nat
  regs : Nat → Nat
  HI : Nat
  LO : Nat

/-- Write register `r` of context `c` with value `v` (array assignment
`ctx->regs[r] = v`). -/
def setReg (c : context) (r v : Nat) : context :=
  { c with regs := fun i => if i = r then v else c.regs i }

/-- One contiguous region of virtual memory (`struct virtual_mem_region`):
base address, length in bytes, and the word-indexed backing store. -/
structure virtual_mem_region where
  vaddr : Nat
  len : Nat
  data : Nat → Nat

/-- The region linked list, head first. -/
abbrev Mem := List virtual_mem_region

/-- Result of `FetchWordFromVirtualMemory`: the fetched word, or the
diagnostic-plus-`exit(1)` taken on alignment or lookup failure. -/
inductive MemRead where
  | ok (value : Nat)
  | segUnaligned (address : Nat)
  | segNonexistent (address : Nat)
deriving DecidableEq

/-- Result of `StoreWordToVirtualMemory`: the updated region list, or the
diagnostic-plus-`exit(1)` taken on alignment or lookup failure. -/
inductive MemWrite where
  | ok (mem : Mem)
  | segUnaligned (address : Nat)
  | segNonexistent (address : Nat)

/-- Embedding of `FetchWordFromVirtualMemory` (sim.c lines 13-39): walk the
region list; on the first region whose range contains the address, fault if
the offset from the region base is not word aligned, else return the stored
word; report the nonexistent-address SEGFAULT when no region matches.
The range test mirrors the C comparison, in which `vaddr + len` is computed
in 32-bit unsigned arithmetic. -/
def FetchWordFromVirtualMemory (address : Nat) : Mem → MemRead
  | [] => .segNonexistent address
  | region :: rest =>
    if address < region.vaddr ∨ address ≥ (region.vaddr + region.len) % U32 then
      FetchWordFromVirtualMemory address rest
    else
      if (address - region.vaddr) &&& 3 ≠ 0 then
        .segUnaligned address
      else
        .ok (region.data ((address - region.vaddr) / 4))

/-- Embedding of `StoreWordToVirtualMemory` (sim.c lines 46-73): same lookup
and alignment logic as the fetch path; on success the addressed cell of the
matching region is replaced. -/
def StoreWordToVirtualMemory (address value : Nat) : Mem → MemWrite
  | [] => .segNonexistent address
  | region :: rest =>
    if address < region.vaddr ∨ address ≥ (region.vaddr + region.len) % U32 then
      match StoreWordToVirtualMemory address value rest with
      | .ok mem => .ok (region :: mem)
      | .segUnaligned a => .segUnaligned a
      | .segNonexistent a => .segNonexistent a
    else
      if (address - region.vaddr) &&& 3 ≠ 0 then
        .segUnaligned address
      else
        .ok ({ region with
                data := fun i =>
                  if i = (address - region.vaddr) / 4 then value else region.data i } :: rest)

/-! Instruction word field extractors, per the bitfield layout of
`union mips_instruction` (sim.h): on the little-endian host the bitfields
occupy the word from the least significant bit up, giving the standard MIPS
encoding opcode[31:26] rs[25:21] rt[20:16] rd[15:11] shamt[10:6] func[5:0],
imm[15:0], addr[25:0]. -/

def opcodeOf (w : Nat) : Nat := (w >>> 26) &&& 63

def rsOf (w : Nat) : Nat := (w >>> 21) &&& 31

def rtOf (w : Nat) : Nat := (w >>> 16) &&& 31

def rdOf (w : Nat) : Nat := (w >>> 11) &&& 31

def shamtOf (w : Nat) : Nat := (w >>> 6) &&& 31

def functOf (w : Nat) : Nat := w &&& 63

def immOf (w : Nat) : Nat := w &&& 65535

def addrOf (w : Nat) : Nat := w &&& 67108863

/-- Outcome of executing one instruction (or one helper routine).
`cont`/`brk` are normal returns of the C `int` functions with return value
1 and 0 respectively, carrying the mutated context and memory; the `seg`
constructors are the `exit(1)` paths taken inside the memory primitives with
their diagnostics; `exited s` is a direct `exit(s)` call; `undef` marks C
undefined behaviour. -/
inductive StepResult where
  | cont (ctx : context) (mem : Mem)
  | brk (ctx : context) (mem : Mem)
  | segUnaligned (address : Nat)
  | segNonexistent (address : Nat)
  | exited (status : Nat)
  | undefinedBehavior

/-- Register observer: the value of register `r` after a normal return. -/
def StepResult.regOf : StepResult → Nat → Nat
  | .cont c _, r => c.regs r
  | .brk c _, r => c.regs r
  | _, _ => 0

/-- Program-counter observer after a normal return. -/
def StepResult.pcOf : StepResult → Nat
  | .cont c _ => c.pc
  | .brk c _ => c.pc
  | _ => 0

/-- HI observer after a normal return. -/
def StepResult.hiOf : StepResult → Nat
  | .cont c _ => c.HI
  | .brk c _ => c.HI
  | _ => 0

/-- LO observer after a normal return. -/
def StepResult.loOf : StepResult → Nat
  | .cont c _ => c.LO
  | .brk c _ => c.LO
  | _ => 0

/-- The `ctx->pc += 4` statement that ends almost every instruction. -/
def advancePC (c : context) : context := { c with pc := (c.pc + 4) % U32 }

/-! Branch and jump instructions (sim.c lines 299-376 and 335-344).
`itype.imm` is an unsigned 16-bit bitfield, so `imm << 2` in the C source is
the zero-extended immediate shifted left; no sign extension is performed.
The register file is unsigned (`uint32_t regs[32]`), so the comparisons
against zero in the BGEZ/BLTZ/BLEZ/BGTZ conditions are unsigned comparisons,
written here exactly as in the source. -/

def simBGEZ (w : Nat) (mem : Mem) (c : context) : StepResult :=
  if 0 ≤ c.regs (rsOf w) then
    .cont { c with pc := ((immOf w) <<< 2) % U32 } mem
  else
    .cont { c with pc := (c.pc + 4) % U32 } mem

def simBGEZAL (w : Nat) (mem : Mem) (c : context) : StepResult :=
  if 0 ≤ c.regs (rsOf w) then
    .cont { setReg c ra ((c.pc + 8) % U32) with pc := ((immOf w) <<< 2) % U32 } mem
  else
    .cont { c with pc := (c.pc + 4) % U32 } mem

def simBLTZ (w : Nat) (mem : Mem) (c : context) : StepResult :=
  if c.regs (rsOf w) < 0 then
    .cont { c with pc := ((immOf w) <<< 2) % U32 } mem
  else
    .cont { c with pc := (c.pc + 4) % U32 } mem

def simBLTZAL (w : Nat) (mem : Mem) (c : context) : StepResult :=
  if c.regs (rsOf w) < 0 then
    .cont { setReg c ra ((c.pc + 8) % U32) with pc := ((immOf w) <<< 2) % U32 } mem
  else
    .cont { c with pc := (c.pc + 4) % U32 } mem

def simJ (w : Nat) (mem : Mem) (c : context) : StepResult :=
  .cont { c with pc := ((c.pc &&& 4026531840) ||| ((addrOf w) <<< 2)) % U32 } mem

def simJAL (w : Nat) (mem : Mem) (c : context) : StepResult :=
  .cont { setReg c ra ((c.pc + 8) % U32) with
            pc := ((c.pc &&& 4026531840) ||| ((addrOf w) <<< 2)) % U32 } mem

def simBEQ (w : Nat) (mem : Mem) (c : context) : StepResult :=
  if c.regs (rsOf w) = c.regs (rtOf w) then
    .cont { c with pc := (c.pc + ((immOf w) <<< 2)) % U32 } mem
  else
    .cont { c with pc := (c.pc + 4) % U32 } mem

def simBNE (w : Nat) (mem : Mem) (c : context) : StepResult :=
  if c.regs (rsOf w) ≠ c.regs (rtOf w) then
    .cont { c with pc := (c.pc + ((immOf w) <<< 2)) % U32 } mem
  else
    .cont { c with pc := (c.pc + 4) % U32 } mem

def simBLEZ (w : Nat) (mem : Mem) (c : context) : StepResult :=
  if c.regs (rsOf w) ≤ 0 then
    .cont { c with pc := (c.pc + ((immOf w) <<< 2)) % U32 } mem
  else
    .cont { c with pc := (c.pc + 4) % U32 } mem

def simBGTZ (w : Nat) (mem : Mem) (c : context) : StepResult :=
  if 0 < c.regs (rsOf w) then
    .cont { c with pc := (c.pc + ((immOf w) <<< 2)) % U32 } mem
  else
    .cont { c with pc := (c.pc + 4) % U32 } mem

/-! Immediate arithmetic and logic (sim.c lines 378-434).  The 16-bit
immediate bitfield is promoted to `int` and then converted to `uint32_t`
by the usual arithmetic conversions, which zero-extends it. -/

def simADDI (w : Nat) (mem : Mem) (c : context) : StepResult :=
  .cont (advancePC (setReg c (rtOf w) ((c.regs (rsOf w) + immOf w) % U32))) mem

def simADDIU (w : Nat) (mem : Mem) (c : context) : StepResult :=
  .cont (advancePC (setReg c (rtOf w) ((c.regs (rsOf w) + immOf w) % U32))) mem

def simSLTI (w : Nat) (mem : Mem) (c : context) : StepResult :=
  if c.regs (rsOf w) < immOf w then
    .cont (advancePC (setReg c (rtOf w) 1)) mem
  else
    .cont (advancePC (setReg c (rtOf w) 0)) mem

def simSLTIU (w : Nat) (mem : Mem) (c : context) : StepResult :=
  if c.regs (rsOf w) < immOf w then
    .cont (advancePC (setReg c (rtOf w) 1)) mem
  else
    .cont (advancePC (setReg c (rtOf w) 0)) mem

def simANDI (w : Nat) (mem : Mem) (c : context) : StepResult :=
  .cont (advancePC (setReg c (rtOf w) (c.regs (rsOf w) &&& immOf w))) mem

def simORI (w : Nat) (mem : Mem) (c : context) : StepResult :=
  .cont (advancePC (setReg c (rtOf w) (c.regs (rsOf w) ||| immOf w))) mem

def simXORI (w : Nat) (mem : Mem) (c : context) : StepResult :=
  .cont (advancePC (setReg c (rtOf w) (c.regs (rsOf w) ^^^ immOf w))) mem

def simLUI (w : Nat) (mem : Mem) (c : context) : StepResult :=
  .cont (advancePC (setReg c (rtOf w) (((immOf w) <<< 16) % U32))) mem

/-! Loads and stores (sim.c lines 436-494).  The source selects the byte
position inside the containing word from `inst->itype.imm % 4` (not from the
effective address), fetches the word at `regs[rs] + imm - (imm % 4)`, and for
the store paths writes the modified word back to `regs[rs] + imm` itself.
All address arithmetic is 32-bit unsigned. -/

def simLB (w : Nat) (mem : Mem) (c : context) : StepResult :=
  if immOf w % 4 = 0 then
    match FetchWordFromVirtualMemory ((c.regs (rsOf w) + immOf w) % U32) mem with
    | .ok v => .cont (advancePC (setReg c (rtOf w) (v &&& 255))) mem
    | .segUnaligned a => .segUnaligned a
    | .segNonexistent a => .segNonexistent a
  else if immOf w % 4 = 1 then
    match FetchWordFromVirtualMemory ((c.regs (rsOf w) + immOf w - 1) % U32) mem with
    | .ok v => .cont (advancePC (setReg c (rtOf w) ((v &&& 65280) >>> 8))) mem
    | .segUnaligned a => .segUnaligned a
    | .segNonexistent a => .segNonexistent a
  else if immOf w % 4 = 2 then
    match FetchWordFromVirtualMemory ((c.regs (rsOf w) + immOf w - 2) % U32) mem with
    | .ok v => .cont (advancePC (setReg c (rtOf w) ((v &&& 16711680) >>> 16))) mem
    | .segUnaligned a => .segUnaligned a
    | .segNonexistent a => .segNonexistent a
  else
    match FetchWordFromVirtualMemory ((c.regs (rsOf w) + immOf w - 3) % U32) mem with
    | .ok v => .cont (advancePC (setReg c (rtOf w) ((v &&& 4278190080) >>> 24))) mem
    | .segUnaligned a => .segUnaligned a
    | .segNonexistent a => .segNonexistent a

def simLW (w : Nat) (mem : Mem) (c : context) : StepResult :=
  match FetchWordFromVirtualMemory ((c.regs (rsOf w) + immOf w) % U32) mem with
  | .ok v => .cont (advancePC (setReg c (rtOf w) v)) mem
  | .segUnaligned a => .segUnaligned a
  | .segNonexistent a => .segNonexistent a

/-- Helper shared by the four `simSB` branches: finish a store with the
modified word `temp` written to `regs[rs] + imm` (the unadjusted effective
address, exactly as in the source). -/
def finishSB (storeAddress temp : Nat) (mem : Mem) (c : context) : StepResult :=
  match StoreWordToVirtualMemory storeAddress temp mem with
  | .ok mem2 => .cont (advancePC c) mem2
  | .segUnaligned a => .segUnaligned a
  | .segNonexistent a => .segNonexistent a

def simSB (w : Nat) (mem : Mem) (c : context) : StepResult :=
  if immOf w % 4 = 0 then
    match FetchWordFromVirtualMemory ((c.regs (rsOf w) + immOf w) % U32) mem with
    | .ok v =>
        finishSB ((c.regs (rsOf w) + immOf w) % U32)
          ((v &&& 4294967040) ||| (c.regs (rtOf w) &&& 255)) mem c
    | .segUnaligned a => .segUnaligned a
    | .segNonexistent a => .segNonexistent a
  else if immOf w % 4 = 1 then
    match FetchWordFromVirtualMemory ((c.regs (rsOf w) + immOf w - 1) % U32) mem with
    | .ok v =>
        finishSB ((c.regs (rsOf w) + immOf w) % U32)
          ((v &&& 4294902015) ||| (((c.regs (rtOf w) <<< 8) % U32) &&& 65280)) mem c
    | .segUnaligned a => .segUnaligned a
    | .segNonexistent a => .segNonexistent a
  else if immOf w % 4 = 2 then
    match FetchWordFromVirtualMemory ((c.regs (rsOf w) + immOf w - 2) % U32) mem with
    | .ok v =>
        finishSB ((c.regs (rsOf w) + immOf w) % U32)
          ((v &&& 4278255615) ||| (((c.regs (rtOf w) <<< 16) % U32) &&& 16711680)) mem c
    | .segUnaligned a => .segUnaligned a
    | .segNonexistent a => .segNonexistent a
  else
    match FetchWordFromVirtualMemory ((c.regs (rsOf w) + immOf w - 3) % U32) mem with
    | .ok v =>
        finishSB ((c.regs (rsOf w) + immOf w) % U32)
          ((v &&& 16777215) ||| (((c.regs (rtOf w) <<< 24) % U32) &&& 4278190080)) mem c
    | .segUnaligned a => .segUnaligned a
    | .segNonexistent a => .segNonexistent a

def simSW (w : Nat) (mem : Mem) (c : context) : StepResult :=
  match StoreWordToVirtualMemory ((c.regs (rsOf w) + immOf w) % U32) (c.regs (rtOf w)) mem with
  | .ok mem2 => .cont (advancePC c) mem2
  | .segUnaligned a => .segUnaligned a
  | .segNonexistent a => .segNonexistent a

/-! R-type instructions (sim.c lines 496-631).  `regs` is `uint32_t`, so all
shifts and comparisons below are unsigned; in particular the SRA of the
source is a logical shift, and SLT compares unsigned.  Variable shifts by
32 or more are undefined behaviour in C. -/

def simSLL (w : Nat) (mem : Mem) (c : context) : StepResult :=
  .cont (advancePC (setReg c (rdOf w) ((c.regs (rtOf w) <<< shamtOf w) % U32))) mem

def simSRL (w : Nat) (mem : Mem) (c : context) : StepResult :=
  .cont (advancePC (setReg c (rdOf w) (c.regs (rtOf w) >>> shamtOf w))) mem

def simSRA (w : Nat) (mem : Mem) (c : context) : StepResult :=
  .cont (advancePC (setReg c (rdOf w) (c.regs (rtOf w) >>> shamtOf w))) mem

def simSLLV (w : Nat) (mem : Mem) (c : context) : StepResult :=
  if c.regs (rsOf w) ≥ 32 then .undefinedBehavior
  else .cont (advancePC (setReg c (rdOf w) ((c.regs (rtOf w) <<< c.regs (rsOf w)) % U32))) mem

def simSRLV (w : Nat) (mem : Mem) (c : context) : StepResult :=
  if c.regs (rsOf w) ≥ 32 then .undefinedBehavior
  else .cont (advancePC (setReg c (rdOf w) (c.regs (rtOf w) >>> c.regs (rsOf w)))) mem

def simJR (w : Nat) (mem : Mem) (c : context) : StepResult :=
  .cont { c with pc := c.regs (rsOf w) } mem

def simMFHI (w : Nat) (mem : Mem) (c : context) : StepResult :=
  .cont (advancePC (setReg c (rdOf w) c.HI)) mem

def simMFLO (w : Nat) (mem : Mem) (c : context) : StepResult :=
  .cont (advancePC (setReg c (rdOf w) c.LO)) mem

/-- `simMULT` in the source computes the 32-bit product
`ctx->LO = ctx->regs[rs] * ctx->regs[rt]` and never touches HI. -/
def simMULT (w : Nat) (mem : Mem) (c : context) : StepResult :=
  .cont (advancePC { c with LO := (c.regs (rsOf w) * c.regs (rtOf w)) % U32 }) mem

def simMULTU (w : Nat) (mem : Mem) (c : context) : StepResult :=
  .cont (advancePC { c with LO := (c.regs (rsOf w) * c.regs (rtOf w)) % U32 }) mem

/-- `simDIV` divides unconditionally with the host `/` and `%` operators;
when the divisor is zero the C expression has undefined behaviour (the
source performs no check and prints no diagnostic), modelled by `undef`. -/
def simDIV (w : Nat) (mem : Mem) (c : context) : StepResult :=
  if c.regs (rtOf w) = 0 then .undefinedBehavior
  else
    .cont (advancePC { c with
      LO := c.regs (rsOf w) / c.regs (rtOf w),
      HI := c.regs (rsOf w) % c.regs (rtOf w) }) mem

def simDIVU (w : Nat) (mem : Mem) (c : context) : StepResult :=
  if c.regs (rtOf w) = 0 then .undefinedBehavior
  else
    .cont (advancePC { c with
      LO := c.regs (rsOf w) / c.regs (rtOf w),
      HI := c.regs (rsOf w) % c.regs (rtOf w) }) mem

def simADD (w : Nat) (mem : Mem) (c : context) : StepResult :=
  .cont (advancePC (setReg c (rdOf w) ((c.regs (rsOf w) + c.regs (rtOf w)) % U32))) mem

def simADDU (w : Nat) (mem : Mem) (c : context) : StepResult :=
  .cont (advancePC (setReg c (rdOf w) ((c.regs (rsOf w) + c.regs (rtOf w)) % U32))) mem

def simSUB (w : Nat) (mem : Mem) (c : context) : StepResult :=
  .cont (advancePC (setReg c (rdOf w) ((c.regs (rsOf w) + U32 - c.regs (rtOf w)) % U32))) mem

def simSUBU (w : Nat) (mem : Mem) (c : context) : StepResult :=
  .cont (advancePC (setReg c (rdOf w) ((c.regs (rsOf w) + U32 - c.regs (rtOf w)) % U32))) mem

def simAND (w : Nat) (mem : Mem) (c : context) : StepResult :=
  .cont (advancePC (setReg c (rdOf w) (c.regs (rsOf w) &&& c.regs (rtOf w)))) mem

def simOR (w : Nat) (mem : Mem) (c : context) : StepResult :=
  .cont (advancePC (setReg c (rdOf w) (c.regs (rsOf w) ||| c.regs (rtOf w)))) mem

def simXOR (w : Nat) (mem : Mem) (c : context) : StepResult :=
  .cont (advancePC (setReg c (rdOf w) (c.regs (rsOf w) ^^^ c.regs (rtOf w)))) mem

def simSLT (w : Nat) (mem : Mem) (c : context) : StepResult :=
  if c.regs (rsOf w) < c.regs (rtOf w) then
    .cont (advancePC (setReg c (rdOf w) 1)) mem
  else
    .cont (advancePC (setReg c (rdOf w) 0)) mem

def simSLTU (w : Nat) (mem : Mem) (c : context) : StepResult :=
  if c.regs (rsOf w) < c.regs (rtOf w) then
    .cont (advancePC (setReg c (rdOf w) 1)) mem
  else
    .cont (advancePC (setReg c (rdOf w) 0)) mem

/-- Embedding of `SimulateSyscall` (sim.c lines 252-276).  Host I/O content is
not modelled: call 1 prints `regs[a0]` and continues.  Calls 4, 5 and 8 pass
the 32-bit register value where `printf`/`scanf` expect a pointer, which is
undefined behaviour on the host.  Call 10 executes `exit(1)` directly.
Unknown call numbers fall through; the non-exiting cases end with
`ctx->pc += 4; return 1`. -/
def SimulateSyscall (callnum : Nat) (mem : Mem) (c : context) : StepResult :=
  match callnum with
  | 1 => .cont (advancePC c) mem
  | 4 => .undefinedBehavior
  | 5 => .undefinedBehavior
  | 8 => .undefinedBehavior
  | 10 => .exited 1
  | _ => .cont (advancePC c) mem

/-- Embedding of `SimulateRtypeInstruction` (sim.c lines 174-250): dispatch on
the 6-bit function code; the default case prints a diagnostic and returns 0
(`brk`), leaving the state untouched.  The `int` returned by
`SimulateSyscall` is discarded in the source, but that callee only ever
returns 1, so its outcome is passed through unchanged. -/
def SimulateRtypeInstruction (w : Nat) (mem : Mem) (c : context) : StepResult :=
  match functOf w with
  | 0 => simSLL w mem c
  | 2 => simSRL w mem c
  | 3 => simSRA w mem c
  | 4 => simSLLV w mem c
  | 6 => simSRLV w mem c
  | 8 => simJR w mem c
  | 12 => SimulateSyscall (c.regs v0) mem c
  | 16 => simMFHI w mem c
  | 18 => simMFLO w mem c
  | 24 => simMULT w mem c
  | 25 => simMULTU w mem c
  | 26 => simDIV w mem c
  | 27 => simDIVU w mem c
  | 32 => simADD w mem c
  | 33 => simADDU w mem c
  | 34 => simSUB w mem c
  | 35 => simSUBU w mem c
  | 36 => simAND w mem c
  | 37 => simOR w mem c
  | 38 => simXOR w mem c
  | 42 => simSLT w mem c
  | 43 => simSLTU w mem c
  | _ => .brk c mem

/-- Embedding of `SimulateBswitch` (sim.c lines 278-297): dispatch on the
`rt` field; the default case returns 0 without touching the state. -/
def SimulateBswitch (w : Nat) (mem : Mem) (c : context) : StepResult :=
  match rtOf w with
  | 1 => simBGEZ w mem c
  | 17 => simBGEZAL w mem c
  | 0 => simBLTZ w mem c
  | 16 => simBLTZAL w mem c
  | _ => .brk c mem

/-- In `SimulateInstruction` the `int` results of `SimulateRtypeInstruction`
and `SimulateBswitch` are discarded (the case body is just `...(inst, memory,
ctx); break;`), after which `SimulateInstruction` returns 1: a 0 return from
those callees is turned into a 1 return, keeping any state change. -/
def ignoredReturnValue : StepResult → StepResult
  | .brk c mem => .cont c mem
  | r => r

/-- Embedding of `SimulateInstruction` (sim.c lines 97-172): zero register 0,
then dispatch on the primary opcode; the default case prints a diagnostic and
returns 0. -/
def SimulateInstruction (w : Nat) (mem : Mem) (ctx : context) : StepResult :=
  let c := setReg ctx zero 0
  match opcodeOf w with
  | 0 => ignoredReturnValue (SimulateRtypeInstruction w mem c)
  | 1 => ignoredReturnValue (SimulateBswitch w mem c)
  | 2 => simJ w mem c
  | 3 => simJAL w mem c
  | 4 => simBEQ w mem c
  | 5 => simBNE w mem c
  | 6 => simBLEZ w mem c
  | 7 => simBGTZ w mem c
  | 8 => simADDI w mem c
  | 9 => simADDIU w mem c
  | 10 => simSLTI w mem c
  | 11 => simSLTIU w mem c
  | 12 => simANDI w mem c
  | 13 => simORI w mem c
  | 14 => simXORI w mem c
  | 15 => simLUI w mem c
  | 32 => simLB w mem c
  | 35 => simLW w mem c
  | 40 => simSB w mem c
  | 43 => simSW w mem c
  | _ => .brk c mem

/-- Outcome of the fuel-indexed run loop. -/
inductive RunResult where
  | finished (ctx : context) (mem : Mem)
  | segUnaligned (address : Nat)
  | segNonexistent (address : Nat)
  | exited (status : Nat)
  | undefinedBehavior
  | running (ctx : context) (mem : Mem)

/-- Embedding of `RunSimulator` (sim.c lines 79-90): fetch the word at pc and
execute it, until `SimulateInstruction` returns 0 (`finished`, after which
`main` returns 0) or an `exit(1)` path fires.  The C loop is unbounded;
`fuel` counts the iterations still allowed, `running` meaning the loop has
not terminated within that bound. -/
def RunSimulator : Nat → Mem → context → RunResult
  | 0, mem, c => .running c mem
  | fuel + 1, mem, c =>
    match FetchWordFromVirtualMemory c.pc mem with
    | .segUnaligned a => .segUnaligned a
    | .segNonexistent a => .segNonexistent a
    | .ok w =>
      match SimulateInstruction w mem c with
      | .cont c2 mem2 => RunSimulator fuel mem2 c2
      | .brk c2 mem2 => .finished c2 mem2
      | .segUnaligned a => .segUnaligned a
      | .segNonexistent a => .segNonexistent a
      | .exited s => .exited s
      | .undefinedBehavior => .undefinedBehavior

/-- Membership of an address in a region, exactly the complement of the C
skip condition `(address < vaddr) || (address >= vaddr + len)` with the sum
computed in 32-bit unsigned arithmetic. -/
abbrev inRange (address : Nat) (region : virtual_mem_region) : Prop :=
  region.vaddr ≤ address ∧ address < (region.vaddr + region.len) % U32

/-! Concrete machine states and instruction words used to evaluate the
claims on specific inputs. -/

/-- An empty region list, for instructions that do not touch memory. -/
def memEmpty : Mem := []

/-- A context with the given pc and all registers, HI and LO zero. -/
def ctxAt (pcv : Nat) : context := { pc := pcv, regs := fun _ => 0, HI := 0, LO := 0 }

/-- BEQ r0, r0, 0xffff: opcode 4, rs = rt = 0, imm = 0xffff (taken, since
register 0 equals itself). -/
def wBEQffff : Nat := (4 <<< 26) ||| 65535

/-- BGEZ r0, 0xffff: opcode 1, rt field 1 selects BGEZ, imm = 0xffff. -/
def wBGEZffff : Nat := (1 <<< 26) ||| (1 <<< 16) ||| 65535

/-- The SYSCALL instruction word: opcode 0, function 0x0c. -/
def wSYSCALL : Nat := 12

/-- A context whose register v0 (index 2) holds 10, the exit call number. -/
def ctxV0is10 : context :=
  { pc := 4194304, regs := fun i => if i = 2 then 10 else 0, HI := 0, LO := 0 }

/-- One code region holding the SYSCALL word at the entry point 0x00400000. -/
def memSyscall : Mem := [{ vaddr := 4194304, len := 4, data := fun _ => wSYSCALL }]

/-- An R-type word with the unknown function code 0x3f (opcode 0). -/
def wIllegalFunc : Nat := 63

/-- A word with the unknown primary opcode 0x3f and all other fields zero. -/
def wIllegalOp : Nat := 63 <<< 26

/-- One code region holding the illegal R-type word at 0x00400000. -/
def memIllegal : Mem := [{ vaddr := 4194304, len := 4, data := fun _ => wIllegalFunc }]

/-- Context at 0x00400000 with every register zero. -/
def ctxIllegal : context := { pc := 4194304, regs := fun _ => 0, HI := 0, LO := 0 }

/-- A word-aligned data region at 0x10000000 of 8 bytes whose cells all hold
the word 0x00000080 (low byte 0x80, other bytes zero). -/
def region0 : virtual_mem_region := { vaddr := 268435456, len := 8, data := fun _ => 128 }

/-- Memory consisting of the single region `region0`. -/
def memSB : Mem := [region0]

/-- A region whose base address 3 is not word aligned. -/
def regionU : virtual_mem_region := { vaddr := 3, len := 8, data := fun _ => 0 }

/-- Context with register 8 holding the aligned base address 0x10000000. -/
def ctxSBaligned : context :=
  { pc := 4194304, regs := fun i => if i = 8 then 268435456 else 0, HI := 0, LO := 0 }

/-- Context with register 8 holding the unaligned address 0x10000001. -/
def ctxSBoff : context :=
  { pc := 4194304, regs := fun i => if i = 8 then 268435457 else 0, HI := 0, LO := 0 }

/-- LB r9, 0(r8): opcode 0x20, rs = 8, rt = 9, imm = 0. -/
def wLBimm0 : Nat := (32 <<< 26) ||| (8 <<< 21) ||| (9 <<< 16)

/-- SB r9, 1(r8): opcode 0x28, rs = 8, rt = 9, imm = 1. -/
def wSBimm1 : Nat := (40 <<< 26) ||| (8 <<< 21) ||| (9 <<< 16) ||| 1

/-- ADD r10, r8, r9: opcode 0, rd = 10, function 0x20. -/
def wADDword : Nat := (8 <<< 21) ||| (9 <<< 16) ||| (10 <<< 11) ||| 32

/-- ADDU r10, r8, r9: function 0x21. -/
def wADDUword : Nat := (8 <<< 21) ||| (9 <<< 16) ||| (10 <<< 11) ||| 33

/-- Context with regs[8] = 0x7fffffff and regs[9] = 1: the signed-overflow
operand pair of the claim. -/
def ctxOverflow : context :=
  { pc := 4194304, regs := fun i => if i = 8 then 2147483647 else if i = 9 then 1 else 0,
    HI := 0, LO := 0 }

/-- MULT r8, r9: function 0x18. -/
def wMULTword : Nat := (8 <<< 21) ||| (9 <<< 16) ||| 24

/-- MULTU r8, r9: function 0x19. -/
def wMULTUword : Nat := (8 <<< 21) ||| (9 <<< 16) ||| 25

/-- Context with regs[8] = regs[9] = 0x10000 (product 2^32, whose high word
is 1 and low word is 0) and recognizable sentinel values in HI and LO. -/
def ctxMult : context :=
  { pc := 0, regs := fun i => if i = 8 then 65536 else if i = 9 then 65536 else 0,
    HI := 57005, LO := 48879 }

/-- DIV r8, r9: function 0x1a. -/
def wDIVword : Nat := (8 <<< 21) ||| (9 <<< 16) ||| 26

/-- DIVU r8, r9: function 0x1b. -/
def wDIVUword : Nat := (8 <<< 21) ||| (9 <<< 16) ||| 27

/-- Context with dividend regs[8] = 5 and divisor regs[9] = 0. -/
def ctxDivZero : context :=
  { pc := 0, regs := fun i => if i = 8 then 5 else 0, HI := 0, LO := 0 }

/-- SLT r10, r8, r9: function 0x2a. -/
def wSLTword : Nat := (8 <<< 21) ||| (9 <<< 16) ||| (10 <<< 11) ||| 42

/-- SLTU r10, r8, r9: function 0x2b. -/
def wSLTUword : Nat := (8 <<< 21) ||| (9 <<< 16) ||| (10 <<< 11) ||| 43

/-- Context with regs[8] = 0xffffffff (the signed value -1) and regs[9] = 0. -/
def ctxSlt : context :=
  { pc := 0, regs := fun i => if i = 8 then 4294967295 else 0, HI := 0, LO := 0 }

/-- ADDI r0, r8, 5: opcode 8 with destination register rt = 0. -/
def wADDIr0 : Nat := (8 <<< 26) ||| (8 <<< 21) ||| 5

/-- Context at 0x00400000 with all registers zero (for the register-0 test). -/
def ctxZeroRegs : context := { pc := 4194304, regs := fun _ => 0, HI := 0, LO := 0 }

/-! Helper lemmas. -/

/-- Clamping register 0 to 0 is the identity on a context whose register 0
is already 0. -/
theorem setReg_zero_self (c : context) (h : c.regs 0 = 0) : setReg c 0 0 = c := by
  have hf : (fun i => if i = 0 then 0 else c.regs i) = c.regs := by
    funext i
    by_cases hi : i = 0 <;> simp [hi, h]
  simp [setReg, hf]

/-- Clamping register 0 to 0 cancels any previous write to register 0. -/
theorem setReg_setReg_zero (c : context) (v : Nat) :
    setReg (setReg c 0 v) 0 0 = setReg c 0 0 := by
  unfold setReg
  have h : (fun i => if i = 0 then 0 else (fun j => if j = 0 then v else c.regs j) i)
      = fun i => if i = 0 then 0 else c.regs i := by
    funext i
    by_cases hi : i = 0 <;> simp [hi]
  simp [h]

/-- The C alignment test `offset & 3` agrees with `offset % 4`. -/
theorem and_three_eq_mod (n : Nat) : n &&& 3 = n % 4 := by
  have h := Nat.and_pow_two_sub_one_eq_mod n 2
  norm_num at h
  exact h

/-- Executing the illegal R-function word leaves the state unchanged: the
default case of `SimulateRtypeInstruction` returns 0 without touching the
context, and `SimulateInstruction` converts that into a 1 return. -/
theorem illegalFunc_step :
    SimulateInstruction wIllegalFunc memIllegal ctxIllegal = .cont ctxIllegal memIllegal := by
  have hc : setReg ctxIllegal 0 0 = ctxIllegal := setReg_zero_self _ rfl
  have h1 : SimulateInstruction wIllegalFunc memIllegal ctxIllegal
      = .cont (setReg ctxIllegal 0 0) memIllegal := rfl
  rw [h1, hc]

/-- Because the illegal R-function step neither advances pc nor signals
termination, the run loop re-executes the same instruction forever. -/
theorem illegalFunc_loop :
    ∀ fuel, RunSimulator fuel memIllegal ctxIllegal = .running ctxIllegal memIllegal := by
  intro fuel
  induction fuel with
  | zero => rfl
  | succ n ih =>
    have hfetch : FetchWordFromVirtualMemory ctxIllegal.pc memIllegal = .ok wIllegalFunc := rfl
    conv_lhs => rw [RunSimulator]
    simp only [hfetch, illegalFunc_step]
    exact ih

/-- A fetch from an address contained in no region reports the
nonexistent-address SEGFAULT, whatever the address alignment. -/
theorem fetch_miss (address : Nat) : ∀ mem : Mem, (∀ region ∈ mem, ¬ inRange address region) →
    FetchWordFromVirtualMemory address mem = .segNonexistent address := by
  intro mem
  induction mem with
  | nil => intro _; rfl
  | cons region rest ih =>
    intro h
    have hr : ¬ inRange address region := h region (List.mem_cons_self region rest)
    have hcond : address < region.vaddr ∨ address ≥ (region.vaddr + region.len) % U32 := by
      by_contra hc
      push_neg at hc
      exact hr hc
    simp only [FetchWordFromVirtualMemory]
    rw [if_pos hcond]
    exact ih (fun r hrr => h r (List.mem_cons_of_mem _ hrr))

/-- A store to an address contained in no region reports the
nonexistent-address SEGFAULT, whatever the address alignment. -/
theorem store_miss (address value : Nat) : ∀ mem : Mem,
    (∀ region ∈ mem, ¬ inRange address region) →
    StoreWordToVirtualMemory address value mem = .segNonexistent address := by
  intro mem
  induction mem with
  | nil => intro _; rfl
  | cons region rest ih =>
    intro h
    have hr : ¬ inRange address region := h region (List.mem_cons_self region rest)
    have hcond : address < region.vaddr ∨ address ≥ (region.vaddr + region.len) % U32 := by
      by_contra hc
      push_neg at hc
      exact hr hc
    simp only [StoreWordToVirtualMemory]
    rw [if_pos hcond, ih (fun r hrr => h r (List.mem_cons_of_mem _ hrr))]

/-- Inside the containing region, the fetch path faults exactly when the
offset from the region base is not a multiple of 4. -/
theorem fetch_head_alignment (address : Nat) (region : virtual_mem_region) (rest : Mem)
    (h : inRange address region) :
    (FetchWordFromVirtualMemory address (region :: rest) = .segUnaligned address
      ↔ (address - region.vaddr) % 4 ≠ 0) := by
  have hcond : ¬(address < region.vaddr ∨ address ≥ (region.vaddr + region.len) % U32) := by
    push_neg
    exact h
  simp only [FetchWordFromVirtualMemory]
  rw [if_neg hcond, and_three_eq_mod]
  by_cases ha : (address - region.vaddr) % 4 = 0
  · rw [if_neg (by simp [ha])]
    simp [ha]
  · rw [if_pos ha]
    simp [ha]

/-- Inside the containing region, the store path faults exactly when the
offset from the region base is not a multiple of 4. -/
theorem store_head_alignment (address value : Nat) (region : virtual_mem_region) (rest : Mem)
    (h : inRange address region) :
    (StoreWordToVirtualMemory address value (region :: rest) = .segUnaligned address
      ↔ (address - region.vaddr) % 4 ≠ 0) := by
  have hcond : ¬(address < region.vaddr ∨ address ≥ (region.vaddr + region.len) % U32) := by
    push_neg
    exact h
  simp only [StoreWordToVirtualMemory]
  rw [if_neg hcond, and_three_eq_mod]
  by_cases ha : (address - region.vaddr) % 4 = 0
  · rw [if_neg (by simp [ha])]
    simp [ha]
  · rw [if_pos ha]
    simp [ha]

/-- When the region base is word aligned, offset alignment and address
alignment coincide for every address of the region. -/
theorem offset_mod_of_aligned_base (region : virtual_mem_region) (hb : region.vaddr % 4 = 0)
    (address : Nat) (h : inRange address region) :
    ((address - region.vaddr) % 4 = 0 ↔ address % 4 = 0) := by
  have hle : region.vaddr ≤ address := h.1
  omega

/-- When the region base is not word aligned (and the region is nonempty and
does not wrap), some address of the region is offset aligned but not address
aligned: the base itself. -/
theorem offset_mod_diverges_of_unaligned_base (region : virtual_mem_region)
    (hb : region.vaddr % 4 ≠ 0) (hlen : 0 < region.len)
    (hsum : region.vaddr + region.len < U32) :
    ∃ address, inRange address region
      ∧ ¬(((address - region.vaddr) % 4 = 0) ↔ address % 4 = 0) := by
  refine ⟨region.vaddr, ⟨Nat.le_refl _, ?_⟩, ?_⟩
  · rw [Nat.mod_eq_of_lt hsum]
    omega
  · simp [hb]

/-! Claim theorems. -/

/-- Claim C1.  The claim states that every taken conditional branch sets the
new pc to the branch address plus the sign-extended immediate shifted left
by 2, so that imm = 0xffff gives pc - 4.  The code refutes it: the 16-bit
immediate bitfield is zero-extended, so a taken BEQ at pc = 0x00400000 with
imm = 0xffff yields 0x0043fffc instead of 0x003ffffc = pc - 4, and the
BGEZ/BGEZAL/BLTZ/BLTZAL group assigns the absolute address imm << 2
(0x0003fffc here) with no pc term at all. -/
theorem mipsC1_branch_targets_not_sign_extended :
    (SimulateInstruction wBEQffff memEmpty (ctxAt 4194304)).pcOf = 4456444
    ∧ (SimulateInstruction wBGEZffff memEmpty (ctxAt 4194304)).pcOf = 262140
    ∧ (4456444 : Nat) ≠ 4194300
    ∧ (262140 : Nat) ≠ 4194300 :=
  ⟨rfl, rfl, by decide, by decide⟩

/-- Claim C2.  The claim states that SYSCALL with regs[v0] = 10 terminates
the run loop cleanly with process exit status 0.  The code refutes it: case
10 of `SimulateSyscall` executes `exit(1)`, so the process exits with
status 1 and control never returns to the run loop. -/
theorem mipsC2_syscall10_exits_with_status_one :
    SimulateInstruction wSYSCALL memSyscall ctxV0is10 = .exited 1
    ∧ RunSimulator 1 memSyscall ctxV0is10 = .exited 1
    ∧ (1 : Nat) ≠ 0 :=
  ⟨rfl, rfl, by decide⟩

/-- Claim C3.  The claim states that `SimulateInstruction` returns false
exactly on the exit syscall, an unknown primary opcode, or an unknown R-type
function code, after which the run loop terminates gracefully.  The code
refutes two of the three cases: an unknown primary opcode does return 0
(first conjunct, the only true case), but the exit syscall calls `exit(1)`
directly instead of returning 0 (third conjunct), and for an unknown
R-function the 0 returned by `SimulateRtypeInstruction` is discarded, so
`SimulateInstruction` returns 1 with the pc unchanged (second conjunct) and
the run loop re-executes the same instruction forever (fourth conjunct). -/
theorem mipsC3_illegal_rfunc_execute_returns_true_and_loops :
    SimulateInstruction wIllegalOp memIllegal ctxIllegal = .brk ctxIllegal memIllegal
    ∧ SimulateInstruction wIllegalFunc memIllegal ctxIllegal = .cont ctxIllegal memIllegal
    ∧ SimulateInstruction wSYSCALL memSyscall ctxV0is10 = .exited 1
    ∧ ∀ fuel, RunSimulator fuel memIllegal ctxIllegal = .running ctxIllegal memIllegal := by
  refine ⟨?_, illegalFunc_step, rfl, illegalFunc_loop⟩
  have hc : setReg ctxIllegal 0 0 = ctxIllegal := setReg_zero_self _ rfl
  have h1 : SimulateInstruction wIllegalOp memIllegal ctxIllegal
      = .brk (setReg ctxIllegal 0 0) memIllegal := rfl
  rw [h1, hc]

/-- Claim C4.  The claim states that SB then LB round-trips the sign-extended
low byte, with the byte position selected by the effective address modulo 4.
The code refutes it on three counts.  First, LB of the byte 0x80 at an
aligned address yields the zero-extended 0x00000080, not the sign-extended
0xffffff80.  Second, SB with imm % 4 = 1 to an aligned region reads the
containing word but then writes it back to the unadjusted effective address
0x10000001, which the store primitive rejects as unaligned, so the program
segfaults instead of storing.  Third, the byte position is selected by
imm % 4 and not by the effective address: with regs[rs] = 0x10000001 and
imm = 0 (effective address with byte index 1) the code takes the imm % 4 = 0
path and fetches the unaligned word at 0x10000001, faulting instead of
loading byte 1. -/
theorem mipsC4_sb_lb_byte_selection_and_extension :
    (SimulateInstruction wLBimm0 memSB ctxSBaligned).regOf 9 = 128
    ∧ (128 : Nat) ≠ 4294967168
    ∧ SimulateInstruction wSBimm1 memSB ctxSBaligned = .segUnaligned 268435457
    ∧ SimulateInstruction wLBimm0 memSB ctxSBoff = .segUnaligned 268435457 :=
  ⟨rfl, by decide, rfl, rfl⟩

/-- Claim C5.  The claim states that ADD traps on signed overflow while ADDU
wraps.  The code refutes the ADD half: `simADD` is identical to `simADDU`
(unsigned wrapping addition with no overflow test), so ADD of 0x7fffffff
and 1 stores 0x80000000 and execution continues to the next instruction; the
ADDU half of the claim does hold at the same operands. -/
theorem mipsC5_add_wraps_without_overflow_trap :
    (SimulateInstruction wADDword memEmpty ctxOverflow).regOf 10 = 2147483648
    ∧ (SimulateInstruction wADDword memEmpty ctxOverflow).pcOf = 4194308
    ∧ (SimulateInstruction wADDUword memEmpty ctxOverflow).regOf 10 = 2147483648 :=
  ⟨rfl, rfl, rfl⟩

/-- Claim C6.  The claim states that MULT and MULTU place the high 32 bits of
the 64-bit product in HI and the low 32 bits in LO.  The code refutes it:
both routines execute only `ctx->LO = regs[rs] * regs[rt]`, a 32-bit
multiply, and never write HI.  With regs[8] = regs[9] = 0x10000 the product
2^32 has high word 1 and low word 0, yet HI keeps its sentinel 0xdead. -/
theorem mipsC6_mult_writes_only_lo :
    (SimulateInstruction wMULTword memEmpty ctxMult).hiOf = 57005
    ∧ (SimulateInstruction wMULTword memEmpty ctxMult).loOf = 0
    ∧ (57005 : Nat) ≠ 1
    ∧ (SimulateInstruction wMULTUword memEmpty ctxMult).hiOf = 57005 :=
  ⟨rfl, rfl, by decide, rfl⟩

/-- Claim C7.  The claim states that DIV and DIVU with a zero divisor raise a
distinct DivByZero diagnostic and terminate.  The code refutes it: both
routines divide unconditionally with the host operators, so a zero divisor
reaches C undefined behaviour (in practice a SIGFPE crash) with no
diagnostic of any kind, modelled here by the `undef` outcome. -/
theorem mipsC7_div_by_zero_is_undefined_no_diagnostic :
    SimulateInstruction wDIVword memEmpty ctxDivZero = .undefinedBehavior
    ∧ SimulateInstruction wDIVUword memEmpty ctxDivZero = .undefinedBehavior :=
  ⟨rfl, rfl⟩

/-- Claim C8.  The claim states that SLT compares its operands as signed
32-bit integers.  The code refutes it: the register file is unsigned and
`simSLT` is identical to `simSLTU`, so with regs[8] = 0xffffffff (signed -1)
and regs[9] = 0 SLT stores 0 where the signed comparison -1 < 0 requires 1;
the SLTU half of the claim holds at the same operands. -/
theorem mipsC8_slt_uses_unsigned_compare :
    (SimulateInstruction wSLTword memEmpty ctxSlt).regOf 10 = 0
    ∧ (0 : Nat) ≠ 1
    ∧ (SimulateInstruction wSLTUword memEmpty ctxSlt).regOf 10 = 0 :=
  ⟨rfl, by decide, rfl⟩

/-- Claim C9, counterexample.  The claim states that ctx.regs[0] = 0 holds
after every instruction.  Executing ADDI with destination register 0 on the
all-zero context leaves regs[0] = 5 in the returned context: the executor
clamps register 0 only at the start of the next instruction. -/
theorem mipsC9_reg0_nonzero_after_write_counterexample :
    (SimulateInstruction wADDIr0 memEmpty ctxZeroRegs).regOf 0 = 5
    ∧ (5 : Nat) ≠ 0 :=
  ⟨rfl, by decide⟩

/-- Claim C9, amended.  Register 0 is forced to 0 at the start of every
`SimulateInstruction` call (sim.c line 102), so the outcome of every
instruction is independent of the incoming value of regs[0]: overwriting
register 0 before the call does not change the result.  A write to register
0 made by an instruction persists until the next instruction starts, which
is why the original after-every-instruction invariant fails. -/
theorem mipsC9_reg0_cleared_at_instruction_start
    (w : Nat) (mem : Mem) (c : context) (v : Nat) :
    SimulateInstruction w mem (setReg c 0 v) = SimulateInstruction w mem c := by
  unfold SimulateInstruction
  rw [show zero = 0 from rfl, setReg_setReg_zero]

/-- Claim C9, witness for the amended theorem at a concrete input. -/
theorem mipsC9_reg0_cleared_witness :
    SimulateInstruction wADDIr0 memEmpty (setReg ctxZeroRegs 0 7)
      = SimulateInstruction wADDIr0 memEmpty ctxZeroRegs :=
  mipsC9_reg0_cleared_at_instruction_start wADDIr0 memEmpty ctxZeroRegs 7

/-- Claim C10.  For an address contained in no region, both memory
primitives report the nonexistent-address SEGFAULT regardless of alignment
(parts 1 and 2); inside the containing region the alignment test examines
the offset from the region base modulo 4, not the address itself (parts 3
and 4); the two notions coincide for every address of the region exactly
when the region base is word aligned (parts 5 and 6). -/
theorem mipsC10_vm_lookup_and_alignment :
    (∀ address (mem : Mem), (∀ region ∈ mem, ¬ inRange address region) →
        FetchWordFromVirtualMemory address mem = .segNonexistent address)
    ∧ (∀ address value (mem : Mem), (∀ region ∈ mem, ¬ inRange address region) →
        StoreWordToVirtualMemory address value mem = .segNonexistent address)
    ∧ (∀ address region (rest : Mem), inRange address region →
        (FetchWordFromVirtualMemory address (region :: rest) = .segUnaligned address
          ↔ (address - region.vaddr) % 4 ≠ 0))
    ∧ (∀ address value region (rest : Mem), inRange address region →
        (StoreWordToVirtualMemory address value (region :: rest) = .segUnaligned address
          ↔ (address - region.vaddr) % 4 ≠ 0))
    ∧ (∀ region : virtual_mem_region, region.vaddr % 4 = 0 →
        ∀ address, inRange address region →
          ((address - region.vaddr) % 4 = 0 ↔ address % 4 = 0))
    ∧ (∀ region : virtual_mem_region, region.vaddr % 4 ≠ 0 → 0 < region.len →
        region.vaddr + region.len < U32 →
        ∃ address, inRange address region
          ∧ ¬(((address - region.vaddr) % 4 = 0) ↔ address % 4 = 0)) :=
  ⟨fetch_miss, store_miss, fetch_head_alignment, store_head_alignment,
    offset_mod_of_aligned_base, offset_mod_diverges_of_unaligned_base⟩

/-- Claim C10, witness: the parts of the theorem instantiated at concrete
inputs, with every hypothesis discharged by evaluation. -/
theorem mipsC10_vm_lookup_witness :
    FetchWordFromVirtualMemory 291 memSB = .segNonexistent 291
    ∧ StoreWordToVirtualMemory 291 7 memSB = .segNonexistent 291
    ∧ FetchWordFromVirtualMemory 268435457 memSB = .segUnaligned 268435457
    ∧ StoreWordToVirtualMemory 268435457 7 memSB = .segUnaligned 268435457
    ∧ ((268435460 - region0.vaddr) % 4 = 0 ↔ 268435460 % 4 = 0)
    ∧ ∃ address, inRange address regionU
        ∧ ¬(((address - regionU.vaddr) % 4 = 0) ↔ address % 4 = 0) := by
  have hmiss : ∀ region ∈ memSB, ¬ inRange 291 region := by
    intro r hr
    simp only [memSB, List.mem_singleton] at hr
    subst hr
    decide
  have hin : inRange 268435457 region0 := by decide
  have hin4 : inRange 268435460 region0 := by decide
  refine ⟨mipsC10_vm_lookup_and_alignment.1 291 memSB hmiss,
    mipsC10_vm_lookup_and_alignment.2.1 291 7 memSB hmiss,
    (mipsC10_vm_lookup_and_alignment.2.2.1 268435457 region0 [] hin).mpr (by decide),
    (mipsC10_vm_lookup_and_alignment.2.2.2.1 268435457 7 region0 [] hin).mpr (by decide),
    mipsC10_vm_lookup_and_alignment.2.2.2.2.1 region0 (by decide) 268435460 hin4,
    mipsC10_vm_lookup_and_alignment.2.2.2.2.2 regionU (by decide) (by decide) (by decide)⟩

end MipsSim
